import Mathlib

/-!
Verification of the message targeting/dispatch subsystem of
apsara-report-backend: a shallow embedding of `messageService`
(`sendMessageById`, the scheduler tick) and of the message-creation
route, with theorems about audience resolution, channel dispatch,
status transitions and auditing.

The embedding follows the JavaScript source statement by statement:
Mongo stores become lists keyed by an `id` field, `Date`s become `Nat`
instants, a thrown exception becomes `Except.error`, and the external
effects (transport calls, audit-log writes) are collected in the
returned outcome record.
-/

namespace Apsara

/-- A value appearing in a group's `filters` map.  JS values are
dynamically typed; the filter values that can meaningfully match a
directory field are strings and booleans, every other value is kept
opaque. -/
inductive FilterVal where
  | str (s : String)
  | boolean (b : Bool)
  | other (n : Nat)
deriving DecidableEq, Repr

/-- A directory entry: an `AdminUser` document with the fields read by
the resolver (`username`, `email`, `role`, `isActive`).  A user without
an email address is modelled by `email = ""` (falsy in JS, dropped by
`filter(Boolean)`). -/
structure DirUser where
  username : String
  email : String
  role : String
  isActive : Bool
deriving DecidableEq, Repr

/-- A member entry of a `UserGroup` (`{username, joinedAt}`). -/
structure GroupMember where
  username : String
  joinedAt : Nat
deriving DecidableEq, Repr

/-- A `UserGroup` document. `filters` is the open JS object, kept as an
association list of key/value pairs. -/
structure Group where
  id : Nat
  name : String
  isActive : Bool
  filters : List (String × FilterVal)
  members : List GroupMember
deriving DecidableEq, Repr

/-- `status` enum of the message schema. -/
inductive MsgStatus where
  | draft
  | scheduled
  | sent
  | failed
deriving DecidableEq, Repr

/-- `channel` enum of the message schema. -/
inductive Channel where
  | email
  | inApp
  | sms
deriving DecidableEq, Repr

/-- A `Message` document with the fields the service reads or writes.
`deliveryReport` holds the `recipientsCount` once set (`none` models the
schema default `{}`). -/
structure Message where
  id : Nat
  title : String
  body : String
  channel : Channel
  status : MsgStatus
  targetGroup : Option Nat
  recipients : List String
  scheduledAt : Option Nat
  sentAt : Option Nat
  deliveryReport : Option Nat
deriving DecidableEq, Repr

/-- One `ActivityLog.create` record. -/
structure AuditEntry where
  user : String
  action : String
  details : String
  ip : String
deriving DecidableEq, Repr

/-- The world the service runs against: the message and group stores,
the user directory, and the behaviour of the two external sinks.
`transportFails` makes `delivery.sendEmail` throw (with message
`transportErr`); `auditFails i` makes `ActivityLog.create` throw while
message `i` is being sent. -/
structure Env where
  messages : List Message
  groups : List Group
  directory : List DirUser
  now : Nat
  transportFails : Bool
  transportErr : String
  auditFails : Nat → Bool

/-- `Message.findById`. -/
def findMessage (msgs : List Message) (id : Nat) : Option Message :=
  msgs.find? (fun m => m.id == id)

/-- `UserGroup.findById`. -/
def findGroup (groups : List Group) (id : Nat) : Option Group :=
  groups.find? (fun g => g.id == id)

/-- The filter-key allow-list of `sendMessageById`. -/
def allowedKeys : List String := ["role", "isActive", "username"]

/-- Mongo conjunction semantics of `AdminUser.find(query)`: a user
matches iff every key/value pair of the query equals the corresponding
user field.  The query built by the service only contains allow-listed
keys, so the catch-all branch is unreachable. -/
def matchesQuery (query : List (String × FilterVal)) (u : DirUser) : Bool :=
  query.all fun kv =>
    if kv.1 = "role" then kv.2 == FilterVal.str u.role
    else if kv.1 = "isActive" then kv.2 == FilterVal.boolean u.isActive
    else if kv.1 = "username" then kv.2 == FilterVal.str u.username
    else false

/-- `Array.from(new Set(xs))`: deduplication keeping the first
occurrence of each element, in order. -/
def dedupGo (acc : List String) : List String → List String
  | [] => acc
  | x :: xs => if acc.contains x then dedupGo acc xs else dedupGo (acc ++ [x]) xs

/-- `Array.from(new Set(xs))`. -/
def dedup (xs : List String) : List String := dedupGo [] xs

/-- Lines 12–36 of `sendMessageById`: start from the explicit
`recipients`, union in the target group's manual members and, when the
projection of the group's `filters` onto the allow-list is non-empty,
the directory users matching that projected query; deduplicate. -/
def resolveRecipients (msg : Message) (groups : List Group) (dir : List DirUser) :
    List String :=
  let base := msg.recipients
  let collected :=
    match msg.targetGroup with
    | none => base
    | some gid =>
      match findGroup groups gid with
      | none => base
      | some g =>
        let r1 := base ++ g.members.map (fun m => m.username)
        if g.filters.length ≠ 0 then
          let query := g.filters.filter (fun kv => allowedKeys.contains kv.1)
          if query.length ≠ 0 then
            r1 ++ (dir.filter (matchesQuery query)).map (fun u => u.username)
          else r1
        else r1
  dedup collected

/-- Lines 43–44: `AdminUser.find({username: {$in: recipients}}, 'email')`
followed by `.map(u => u.email).filter(Boolean)`. -/
def emailsFor (dir : List DirUser) (recipients : List String) : List String :=
  ((dir.filter (fun u => recipients.contains u.username)).map
    (fun u => u.email)).filter (fun e => e ≠ "")

/-- The outcome of one `sendMessageById` call: the message state written
by `msg.save()` (`none` when the call aborted before saving), the
argument lists of the transport calls made, the audit entries
successfully recorded, and the JS return value (`Except.error` models a
thrown exception, `Except.ok none` models the `null` returned for an
unknown id, `Except.ok (some n)` models `{recipientsCount: n}`). -/
structure SendOutcome where
  savedMsg : Option Message
  transportCalls : List (List String)
  audits : List AuditEntry
  ret : Except String (Option Nat)
deriving Repr

/-- The audit entry of line 50 (transport-error path). -/
def errorAudit (actor : String) (msgId : Nat) (ip errMsg : String) : AuditEntry :=
  { user := actor, action := "Send Message Error",
    details := "Email send failed for " ++ toString msgId ++ ": " ++ errMsg,
    ip := ip }

/-- The audit entry of line 59 (successful orchestration). -/
def sendAudit (actor : String) (title : String) (count : Nat) (ip : String) :
    AuditEntry :=
  { user := actor, action := "Send Message",
    details := "Sent message " ++ title ++ " to " ++ toString count ++ " recipients",
    ip := ip }

/-- The message state written by lines 54–57. -/
def sentVersion (msg : Message) (now count : Nat) : Message :=
  { msg with status := MsgStatus.sent, sentAt := some now,
             deliveryReport := some count }

/-- Lines 54–61: persist the `sent` state, then record the "Send
Message" audit entry (an audit failure propagates as an exception, after
the save). -/
def finishSend (env : Env) (msg : Message) (actor ip : String) (count : Nat)
    (calls : List (List String)) (audits : List AuditEntry) : SendOutcome :=
  let msg' := sentVersion msg env.now count
  if env.auditFails msg.id then
    { savedMsg := some msg', transportCalls := calls, audits := audits,
      ret := Except.error "audit sink failure" }
  else
    { savedMsg := some msg', transportCalls := calls,
      audits := audits ++ [sendAudit actor msg.title count ip],
      ret := Except.ok (some count) }

/-- `sendMessageById(id, actor, ip)` (lines 8–61 of the message
service): load the message, resolve the audience, dispatch on the email
channel inside a try/catch that converts a transport error into an audit
entry, then mark the message `sent` and audit the send. -/
def sendMessageById (env : Env) (id : Nat) (actor ip : String) : SendOutcome :=
  match findMessage env.messages id with
  | none =>
    { savedMsg := none, transportCalls := [], audits := [], ret := Except.ok none }
  | some msg =>
    let recipients := resolveRecipients msg env.groups env.directory
    if msg.channel = Channel.email then
      let emails := emailsFor env.directory recipients
      if emails.length ≠ 0 then
        if env.transportFails then
          -- `delivery.sendEmail` threw; the catch block records the error.
          if env.auditFails msg.id then
            -- `ActivityLog.create` inside the catch also throws: the whole
            -- call rejects before `msg.save()`.
            { savedMsg := none, transportCalls := [emails], audits := [],
              ret := Except.error "audit sink failure" }
          else
            finishSend env msg actor ip recipients.length [emails]
              [errorAudit actor msg.id ip env.transportErr]
        else
          finishSend env msg actor ip recipients.length [emails] []
      else
        finishSend env msg actor ip recipients.length [] []
    else
      finishSend env msg actor ip recipients.length [] []

/-- `msg.save()` against the store: Mongo rewrites the document with the
saved message's id and leaves every other document unchanged. -/
def updateMessage (msgs : List Message) (m : Message) : List Message :=
  msgs.map (fun x => if x.id == m.id then m else x)

/-- Applies the `msg.save()` performed (or not) by a send outcome. -/
def applySave (msgs : List Message) : Option Message → List Message
  | none => msgs
  | some m => updateMessage msgs m

/-- The query of line 70: `{status: 'scheduled', scheduledAt: {$lte: now}}`
(a document with no `scheduledAt` does not satisfy `$lte`). -/
def isDue (now : Nat) (m : Message) : Bool :=
  m.status == MsgStatus.scheduled &&
    (match m.scheduledAt with
     | some t => t ≤ now
     | none => false)

/-- The `for` loop of lines 71–73: send each due message in order with
actor `"system"` and ip `"scheduler"`, persisting each save before the
next send; a per-message exception is swallowed and the loop continues. -/
def tickGo (env : Env) : List Message → Env × List SendOutcome
  | [] => (env, [])
  | m :: rest =>
    let out := sendMessageById env m.id "system" "scheduler"
    let env' := { env with messages := applySave env.messages out.savedMsg }
    let step := tickGo env' rest
    (step.1, out :: step.2)

/-- One tick of the scheduler (lines 67–76): snapshot the due messages,
then process them sequentially. -/
def schedulerTick (env : Env) : Env × List SendOutcome :=
  tickGo env (env.messages.filter (isDue env.now))

/-- The `scheduledAt` value of a create-message request after JS
truthiness and `new Date(...)` parsing: `absent` covers a missing or
falsy value, `invalid` a truthy value whose parse is `NaN`, and
`valid t` a parse to the instant `t`. -/
inductive SchedInput where
  | absent
  | invalid
  | valid (t : Nat)
deriving DecidableEq, Repr

/-- Lines 333–345 of `admin_v2.js` (`POST /messages`): build the message
with the schema defaults (`status: 'draft'`, `channel: 'in-app'`,
`recipients: []`) and upgrade the status to `scheduled` exactly when a
`scheduledAt` was provided, parses to a valid date, and is strictly
after the current time. -/
def createMessage (title body : String) (channel : Option Channel)
    (targetGroupId : Option Nat) (recipients : Option (List String))
    (sched : SchedInput) (now id : Nat) : Message :=
  let base : Message :=
    { id := id, title := title, body := body,
      channel := channel.getD Channel.inApp,
      status := MsgStatus.draft,
      targetGroup := targetGroupId,
      recipients := recipients.getD [],
      scheduledAt := match sched with | SchedInput.valid t => some t | _ => none,
      sentAt := none, deliveryReport := none }
  match sched with
  | SchedInput.valid t =>
    if now < t then { base with status := MsgStatus.scheduled } else base
  | _ => base

/-! ### Basic lemmas about the list plumbing -/

theorem mem_dedupGo (acc xs : List String) (y : String) :
    y ∈ dedupGo acc xs ↔ y ∈ acc ∨ y ∈ xs := by
  induction xs generalizing acc with
  | nil => simp [dedupGo]
  | cons x xs ih =>
    by_cases hx : acc.contains x
    · have hx' : x ∈ acc := by simpa using hx
      simp only [dedupGo, hx, if_pos]
      rw [ih]
      constructor
      · rintro (h | h)
        · exact Or.inl h
        · exact Or.inr (List.mem_cons_of_mem _ h)
      · rintro (h | h)
        · exact Or.inl h
        · rcases List.mem_cons.mp h with rfl | h
          · exact Or.inl hx'
          · exact Or.inr h
    · simp only [dedupGo, hx, if_neg, Bool.false_eq_true, not_false_iff]
      rw [ih]
      simp only [List.mem_append, List.mem_singleton, List.mem_cons]
      tauto

theorem mem_dedup (xs : List String) (y : String) : y ∈ dedup xs ↔ y ∈ xs := by
  rw [dedup, mem_dedupGo]
  simp

theorem nodup_dedupGo (acc xs : List String) (h : acc.Nodup) :
    (dedupGo acc xs).Nodup := by
  induction xs generalizing acc with
  | nil => simpa [dedupGo] using h
  | cons x xs ih =>
    by_cases hx : acc.contains x
    · simp only [dedupGo, hx, if_pos]
      exact ih acc h
    · simp only [dedupGo, hx, if_neg, Bool.false_eq_true, not_false_iff]
      refine ih _ ?_
      refine List.Nodup.append h (by simp) ?_
      intro a ha hb
      rcases List.mem_singleton.mp hb with rfl
      exact absurd (by simpa using ha) (by simpa using hx)

theorem nodup_dedup (xs : List String) : (dedup xs).Nodup :=
  nodup_dedupGo [] xs List.nodup_nil

theorem findMessage_some_id {msgs : List Message} {id : Nat} {m : Message}
    (h : findMessage msgs id = some m) : m.id = id := by
  have := List.find?_some h
  simpa using this

theorem findMessage_mem {msgs : List Message} {id : Nat} {m : Message}
    (h : findMessage msgs id = some m) : m ∈ msgs :=
  List.mem_of_find?_eq_some h

/-- With pairwise-distinct ids, looking a stored message up by its own
id returns it. -/
theorem findMessage_self {msgs : List Message} {m : Message}
    (hm : m ∈ msgs) (hids : (msgs.map (fun x => x.id)).Nodup) :
    findMessage msgs m.id = some m := by
  induction msgs with
  | nil => cases hm
  | cons h t ih =>
    rcases List.mem_cons.mp hm with rfl | hmt
    · simp [findMessage, List.find?]
    · have hne : h.id ≠ m.id := by
        intro he
        have hmem : m.id ∈ t.map (fun x => x.id) := List.mem_map_of_mem _ hmt
        have hnotin := (List.nodup_cons.mp hids).1
        rw [← he] at hmem
        exact hnotin hmem
      have ht : (t.map (fun x => x.id)).Nodup := (List.nodup_cons.mp hids).2
      simp only [findMessage, List.find?]
      have : (h.id == m.id) = false := by
        simp [hne]
      rw [this]
      exact ih hmt ht

/-- The usernames the directory contributes to a group's audience: the
users matching the group's `filters` projected onto the allow-list,
under the service's convention that an empty projected query queries
nobody (lines 19–32). -/
def dirMatches (g : Group) (dir : List DirUser) : List String :=
  let query := g.filters.filter (fun kv => allowedKeys.contains kv.1)
  if query.length ≠ 0 then (dir.filter (matchesQuery query)).map (fun u => u.username)
  else []

/-- Unfolding of `resolveRecipients` when the target group is present in
the store: the collected list is recipients ++ member names ++ directory
matches. -/
theorem resolveRecipients_group (msg : Message) (groups : List Group)
    (dir : List DirUser) (gid : Nat) (g : Group)
    (hTG : msg.targetGroup = some gid) (hG : findGroup groups gid = some g) :
    resolveRecipients msg groups dir =
      dedup (msg.recipients ++ g.members.map (fun m => m.username) ++ dirMatches g dir) := by
  simp only [resolveRecipients, dirMatches, hTG, hG]
  by_cases hfe : g.filters = []
  · simp [hfe, allowedKeys]
  · have hf : g.filters.length ≠ 0 := fun h => hfe (List.length_eq_zero.mp h)
    rw [if_pos hf]
    by_cases hq : (List.filter (fun kv => allowedKeys.contains kv.1) g.filters).length ≠ 0
    · rw [if_pos hq, if_pos hq]
    · rw [if_neg hq, if_neg hq, List.append_nil]

/-- Unfolding of `resolveRecipients` when the message has no target
group. -/
theorem resolveRecipients_nogroup (msg : Message) (groups : List Group)
    (dir : List DirUser) (hTG : msg.targetGroup = none) :
    resolveRecipients msg groups dir = dedup msg.recipients := by
  simp only [resolveRecipients, hTG]

/-- Unfolding of `resolveRecipients` when the target group id resolves
to no stored group. -/
theorem resolveRecipients_missing_group (msg : Message) (groups : List Group)
    (dir : List DirUser) (gid : Nat) (hTG : msg.targetGroup = some gid)
    (hG : findGroup groups gid = none) :
    resolveRecipients msg groups dir = dedup msg.recipients := by
  simp only [resolveRecipients, hTG, hG]

/-- C2: for a message whose target group is present, the resolved
audience is exactly the deduplicated union of the explicit recipients,
the group's manual members' usernames, and the directory users matching
the group's filters projected onto the allow-list `{role, isActive,
username}`; and inserting or deleting a filter entry whose key is
outside the allow-list (at any position, with any value) leaves the
resolved audience unchanged. -/
theorem audience_with_group_union (msg : Message) (groups : List Group)
    (dir : List DirUser) (gid : Nat) (g : Group)
    (hTG : msg.targetGroup = some gid) (hG : findGroup groups gid = some g) :
    (∀ x, x ∈ resolveRecipients msg groups dir ↔
        x ∈ msg.recipients ∨ x ∈ g.members.map (fun m => m.username) ∨
          x ∈ dirMatches g dir) ∧
    (resolveRecipients msg groups dir).Nodup ∧
    (∀ (k : String) (v : FilterVal) (fs1 fs2 : List (String × FilterVal))
        (groups2 : List Group),
      ¬ k ∈ allowedKeys →
      g.filters = fs1 ++ fs2 →
      findGroup groups2 gid = some { g with filters := fs1 ++ (k, v) :: fs2 } →
      resolveRecipients msg groups2 dir = resolveRecipients msg groups dir) := by
  refine ⟨?_, ?_, ?_⟩
  · intro x
    rw [resolveRecipients_group msg groups dir gid g hTG hG, mem_dedup]
    simp [or_assoc]
  · rw [resolveRecipients_group msg groups dir gid g hTG hG]
    exact nodup_dedup _
  · intro k v fs1 fs2 groups2 hk hsplit hG2
    rw [resolveRecipients_group msg groups2 dir gid _ hTG hG2,
        resolveRecipients_group msg groups dir gid g hTG hG]
    have hproj : ((fs1 ++ (k, v) :: fs2).filter (fun kv => allowedKeys.contains kv.1)) =
        ((fs1 ++ fs2).filter (fun kv => allowedKeys.contains kv.1)) := by
      have hkc : (allowedKeys.contains k) = false := by
        simpa using hk
      simp [List.filter_append, List.filter_cons, hkc, hk]
    have : dirMatches { g with filters := fs1 ++ (k, v) :: fs2 } dir = dirMatches g dir := by
      unfold dirMatches
      simp only [hsplit, hproj]
    rw [this]

/-- C3: for a message with no target group, the resolved audience is
exactly the deduplicated explicit recipient list, it contains no
duplicates, and it is invariant (as a set) under reordering or
repetition of the recipient entries. -/
theorem audience_without_group (msg : Message) (groups : List Group)
    (dir : List DirUser) (hTG : msg.targetGroup = none) :
    (∀ x, x ∈ resolveRecipients msg groups dir ↔ x ∈ msg.recipients) ∧
    (resolveRecipients msg groups dir).Nodup ∧
    (∀ recipients2 : List String,
      (∀ x, x ∈ recipients2 ↔ x ∈ msg.recipients) →
      ∀ x, x ∈ resolveRecipients { msg with recipients := recipients2 } groups dir ↔
        x ∈ resolveRecipients msg groups dir) := by
  refine ⟨?_, ?_, ?_⟩
  · intro x
    rw [resolveRecipients_nogroup msg groups dir hTG, mem_dedup]
  · rw [resolveRecipients_nogroup msg groups dir hTG]
    exact nodup_dedup _
  · intro recipients2 hsame x
    rw [resolveRecipients_nogroup msg groups dir hTG,
        resolveRecipients_nogroup { msg with recipients := recipients2 } groups dir (by simpa using hTG),
        mem_dedup, mem_dedup]
    exact hsame x

/-- When the message exists and the audit sink is up, `sendMessageById`
saves the `sent` version, records the "Send Message" audit entry and
returns the resolved recipient count — whatever the channel and whatever
the transport does. -/
theorem send_found (env : Env) (id : Nat) (msg : Message) (actor ip : String)
    (hfind : findMessage env.messages id = some msg)
    (haf : env.auditFails id = false) :
    (sendMessageById env id actor ip).savedMsg =
      some (sentVersion msg env.now
        (resolveRecipients msg env.groups env.directory).length) ∧
    sendAudit actor msg.title
        (resolveRecipients msg env.groups env.directory).length ip ∈
      (sendMessageById env id actor ip).audits ∧
    (sendMessageById env id actor ip).ret =
      Except.ok (some (resolveRecipients msg env.groups env.directory).length) := by
  have hid : msg.id = id := findMessage_some_id hfind
  have haf' : env.auditFails msg.id = false := by rw [hid]; exact haf
  by_cases hch : msg.channel = Channel.email
  · by_cases hne :
      (emailsFor env.directory (resolveRecipients msg env.groups env.directory)).length ≠ 0
    · by_cases htf : env.transportFails = true
      · simp [sendMessageById, hfind, hch, hne, htf, haf', finishSend]
      · simp [sendMessageById, hfind, hch, hne, htf, haf', finishSend]
    · simp [sendMessageById, hfind, hch, hne, haf', finishSend]
  · simp [sendMessageById, hfind, hch, haf', finishSend]

/-- C4: a dangling `targetGroup` reference (group id set, group absent
from the store) is not an error: the audience falls back to exactly the
deduplicated explicit recipients, and the send completes normally,
returning their count and persisting the `sent` state. -/
theorem missing_group_send_ok (env : Env) (id gid : Nat) (msg : Message)
    (actor ip : String)
    (hfind : findMessage env.messages id = some msg)
    (hTG : msg.targetGroup = some gid)
    (hG : findGroup env.groups gid = none)
    (haf : env.auditFails id = false) :
    resolveRecipients msg env.groups env.directory = dedup msg.recipients ∧
    (∀ x, x ∈ resolveRecipients msg env.groups env.directory ↔ x ∈ msg.recipients) ∧
    (sendMessageById env id actor ip).ret =
      Except.ok (some (dedup msg.recipients).length) ∧
    (sendMessageById env id actor ip).savedMsg =
      some (sentVersion msg env.now (dedup msg.recipients).length) := by
  have hres := resolveRecipients_missing_group msg env.groups env.directory gid hTG hG
  have hmain := send_found env id msg actor ip hfind haf
  refine ⟨hres, ?_, ?_, ?_⟩
  · intro x
    rw [hres, mem_dedup]
  · rw [hmain.2.2, hres]
  · rw [hmain.1, hres]

/-- C5: on the email channel, a transport failure does not abort the
orchestration: the message is still saved as `sent` with the resolved
recipient count, the call still returns that count, and the audit trail
gets a transport-error entry distinct from the "Send Message" entry. -/
theorem transport_failure_still_sent (env : Env) (id : Nat) (msg : Message)
    (actor ip : String)
    (hfind : findMessage env.messages id = some msg)
    (hch : msg.channel = Channel.email)
    (htf : env.transportFails = true)
    (haf : env.auditFails id = false)
    (hne : (emailsFor env.directory
      (resolveRecipients msg env.groups env.directory)).length ≠ 0) :
    (sendMessageById env id actor ip).savedMsg =
      some (sentVersion msg env.now
        (resolveRecipients msg env.groups env.directory).length) ∧
    (sendMessageById env id actor ip).ret =
      Except.ok (some (resolveRecipients msg env.groups env.directory).length) ∧
    (sendMessageById env id actor ip).transportCalls =
      [emailsFor env.directory (resolveRecipients msg env.groups env.directory)] ∧
    (sendMessageById env id actor ip).audits =
      [errorAudit actor id ip env.transportErr,
       sendAudit actor msg.title
         (resolveRecipients msg env.groups env.directory).length ip] ∧
    errorAudit actor id ip env.transportErr ≠
      sendAudit actor msg.title
        (resolveRecipients msg env.groups env.directory).length ip := by
  have hid : msg.id = id := findMessage_some_id hfind
  have haf' : env.auditFails msg.id = false := by rw [hid]; exact haf
  refine ⟨?_, ?_, ?_, ?_, ?_⟩ <;>
    simp [sendMessageById, hfind, hch, htf, hne, haf', haf, finishSend, hid,
      errorAudit, sendAudit]

/-- C6: on the email channel the transport is called once, with exactly
the non-empty email addresses the directory holds for the resolved
usernames (no call at all when that list is empty), while the persisted
`deliveryReport.recipientsCount` is the size of the resolved audience —
not the number of addresses actually sent. -/
theorem email_dispatch_addresses (env : Env) (id : Nat) (msg : Message)
    (actor ip : String)
    (hfind : findMessage env.messages id = some msg)
    (hch : msg.channel = Channel.email)
    (haf : env.auditFails id = false) :
    (∀ e, e ∈ emailsFor env.directory (resolveRecipients msg env.groups env.directory) ↔
        (e ≠ "" ∧ ∃ u, u ∈ env.directory ∧
          u.username ∈ resolveRecipients msg env.groups env.directory ∧
          u.email = e)) ∧
    (sendMessageById env id actor ip).transportCalls =
      (if (emailsFor env.directory
            (resolveRecipients msg env.groups env.directory)).length ≠ 0 then
          [emailsFor env.directory (resolveRecipients msg env.groups env.directory)]
        else []) ∧
    (sendMessageById env id actor ip).savedMsg =
      some (sentVersion msg env.now
        (resolveRecipients msg env.groups env.directory).length) := by
  have hid : msg.id = id := findMessage_some_id hfind
  have haf' : env.auditFails msg.id = false := by rw [hid]; exact haf
  refine ⟨?_, ?_, ?_⟩
  · intro e
    simp [emailsFor, List.mem_filter, List.mem_map]
    tauto
  · by_cases hne :
      (emailsFor env.directory (resolveRecipients msg env.groups env.directory)).length ≠ 0
    · by_cases htf : env.transportFails = true
      · simp [sendMessageById, hfind, hch, hne, htf, haf', finishSend]
      · simp [sendMessageById, hfind, hch, hne, htf, haf', finishSend]
    · simp [sendMessageById, hfind, hch, hne, haf', finishSend]
  · exact (send_found env id msg actor ip hfind haf).1

/-- C10: when no resolved user has a non-empty email address, the email
channel makes no transport call at all, yet the message is still saved
as `sent` with the resolved audience size as its recipient count, which
is also returned. -/
theorem empty_address_list_no_transport (env : Env) (id : Nat) (msg : Message)
    (actor ip : String)
    (hfind : findMessage env.messages id = some msg)
    (hch : msg.channel = Channel.email)
    (haf : env.auditFails id = false)
    (hempty : emailsFor env.directory
      (resolveRecipients msg env.groups env.directory) = []) :
    (sendMessageById env id actor ip).transportCalls = [] ∧
    (sendMessageById env id actor ip).savedMsg =
      some (sentVersion msg env.now
        (resolveRecipients msg env.groups env.directory).length) ∧
    (sendMessageById env id actor ip).ret =
      Except.ok (some (resolveRecipients msg env.groups env.directory).length) := by
  have hid : msg.id = id := findMessage_some_id hfind
  have haf' : env.auditFails msg.id = false := by rw [hid]; exact haf
  refine ⟨?_, ?_, ?_⟩
  · simp [sendMessageById, hfind, hch, hempty, haf', finishSend]
  · exact (send_found env id msg actor ip hfind haf).1
  · exact (send_found env id msg actor ip hfind haf).2.2

/-! ### Concrete fixtures -/

/-- A directory user with an email address. -/
def bobUser : DirUser :=
  { username := "bob", email := "bob@example.com", role := "user", isActive := true }

/-- A message already in the terminal state `sent`, with `sentAt = 5`
and a recorded delivery report. -/
def terminalMsg : Message :=
  { id := 1, title := "Hello", body := "World", channel := Channel.email,
    status := MsgStatus.sent, targetGroup := none, recipients := ["bob"],
    scheduledAt := none, sentAt := some 5, deliveryReport := some 1 }

/-- A healthy world (transport and audit sink both up) holding only
`terminalMsg`, with the clock at 10. -/
def envTerminal : Env :=
  { messages := [terminalMsg], groups := [], directory := [bobUser],
    now := 10, transportFails := false, transportErr := "relay down",
    auditFails := fun _ => false }

/-- A draft message on the in-app channel. -/
def draftMsg : Message :=
  { id := 2, title := "Hi", body := "B", channel := Channel.inApp,
    status := MsgStatus.draft, targetGroup := none, recipients := ["bob"],
    scheduledAt := none, sentAt := none, deliveryReport := none }

/-- A world whose audit sink is down: every `ActivityLog.create` call
throws. -/
def envAuditDown : Env :=
  { messages := [draftMsg], groups := [], directory := [bobUser],
    now := 20, transportFails := false, transportErr := "",
    auditFails := fun _ => true }

/-- C1 (violated by the code): `sendMessageById` performs no
terminal-state check.  Invoked on a message whose status is already
`sent` (with `sentAt = 5` and a delivery report on record), it makes a
fresh transport call and saves the message with `sentAt` overwritten to
the current time 10 — so `sentAt` is not write-once and a second send is
not suppressed. -/
theorem send_overwrites_terminal_state :
    terminalMsg.status = MsgStatus.sent ∧
    terminalMsg.sentAt = some 5 ∧
    (sendMessageById envTerminal 1 "admin" "9.9.9.9").transportCalls =
      [["bob@example.com"]] ∧
    (sendMessageById envTerminal 1 "admin" "9.9.9.9").savedMsg.map Message.sentAt =
      some (some 10) ∧
    (sendMessageById envTerminal 1 "admin" "9.9.9.9").savedMsg.map Message.sentAt ≠
      some terminalMsg.sentAt := by
  refine ⟨rfl, rfl, rfl, rfl, ?_⟩
  decide

/-- C7 (violated by the code): the final `ActivityLog.create` on line 59
is awaited without a try/catch, so when the audit sink throws the whole
`sendMessageById` call rejects instead of returning the recipient count
— even though the message itself was already persisted as `sent` by the
preceding `msg.save()`. -/
theorem audit_failure_fails_send :
    (sendMessageById envAuditDown 2 "admin" "1.1.1.1").ret =
      Except.error "audit sink failure" ∧
    (sendMessageById envAuditDown 2 "admin" "1.1.1.1").savedMsg =
      some (sentVersion draftMsg 20 1) ∧
    ∀ n : Nat, (sendMessageById envAuditDown 2 "admin" "1.1.1.1").ret ≠
      Except.ok (some n) := by
  refine ⟨rfl, rfl, ?_⟩
  intro n
  simp [sendMessageById, envAuditDown, findMessage, draftMsg, finishSend,
    List.find?]

/-- C9: a message created through `POST /messages` starts in status
`scheduled` exactly when a `scheduledAt` value was provided, parses to a
valid instant, and lies strictly in the future; in every other case
(absent or falsy value, unparsable value, or an instant not strictly
after now) it starts in status `draft`. -/
theorem create_status_scheduled_iff (title body : String)
    (channel : Option Channel) (tg : Option Nat)
    (recips : Option (List String)) (sched : SchedInput) (now id : Nat) :
    ((createMessage title body channel tg recips sched now id).status =
        MsgStatus.scheduled ↔ ∃ t, sched = SchedInput.valid t ∧ now < t) ∧
    ((createMessage title body channel tg recips sched now id).status =
        MsgStatus.draft ↔ ¬ ∃ t, sched = SchedInput.valid t ∧ now < t) := by
  cases sched with
  | absent => simp [createMessage]
  | invalid => simp [createMessage]
  | valid t =>
    by_cases h : now < t
    · simp [createMessage, h]
    · simp [createMessage, h]

/-! ### Scheduler lemmas -/

/-- Both branches of `finishSend` persist the `sent` version. -/
theorem finishSend_savedMsg (env : Env) (msg : Message) (actor ip : String)
    (n : Nat) (calls : List (List String)) (audits : List AuditEntry) :
    (finishSend env msg actor ip n calls audits).savedMsg =
      some (sentVersion msg env.now n) := by
  unfold finishSend
  split <;> rfl

/-- A send either saves nothing or saves the `sent` version of the
message stored under the requested id. -/
theorem savedMsg_cases (env : Env) (i : Nat) (a p : String) :
    (sendMessageById env i a p).savedMsg = none ∨
    ∃ msg, findMessage env.messages i = some msg ∧
      (sendMessageById env i a p).savedMsg =
        some (sentVersion msg env.now
          (resolveRecipients msg env.groups env.directory).length) := by
  cases hfind : findMessage env.messages i with
  | none => left; simp [sendMessageById, hfind]
  | some msg =>
    by_cases hch : msg.channel = Channel.email
    · by_cases hne : (emailsFor env.directory
        (resolveRecipients msg env.groups env.directory)).length ≠ 0
      · by_cases htf : env.transportFails = true
        · by_cases haf : env.auditFails msg.id = true
          · left
            simp [sendMessageById, hfind, hch, hne, htf, haf]
          · right
            exact ⟨msg, rfl,
              by simp [sendMessageById, hfind, hch, hne, htf, haf, finishSend_savedMsg]⟩
        · right
          exact ⟨msg, rfl,
            by simp [sendMessageById, hfind, hch, hne, htf, finishSend_savedMsg]⟩
      · right
        exact ⟨msg, rfl,
          by simp [sendMessageById, hfind, hch, hne, finishSend_savedMsg]⟩
    · right
      exact ⟨msg, rfl,
        by simp [sendMessageById, hfind, hch, finishSend_savedMsg]⟩

/-- One step of the scheduler loop: the store after the head message's
send is persisted. -/
def stepEnv (env : Env) (i : Nat) : Env :=
  { env with messages :=
      applySave env.messages (sendMessageById env i "system" "scheduler").savedMsg }

/-- Whatever a send saves carries the id it was invoked with. -/
theorem savedMsg_id (env : Env) (i : Nat) (a p : String) (m' : Message)
    (h : (sendMessageById env i a p).savedMsg = some m') : m'.id = i := by
  rcases savedMsg_cases env i a p with hnone | ⟨msg, hfind, hsaved⟩
  · rw [hnone] at h; cases h
  · rw [hsaved] at h
    have he : sentVersion msg env.now
        (resolveRecipients msg env.groups env.directory).length = m' :=
      Option.some.inj h
    have h2 : msg.id = i := findMessage_some_id hfind
    rw [← he]
    exact h2

/-- `msg.save()` leaves every document with a different id untouched. -/
theorem findMessage_updateMessage_ne (msgs : List Message) (m' : Message)
    (j : Nat) (h : m'.id ≠ j) :
    findMessage (updateMessage msgs m') j = findMessage msgs j := by
  induction msgs with
  | nil => rfl
  | cons x xs ih =>
    by_cases hx : x.id = m'.id
    · have hxj : (x.id == j) = false := by
        rw [hx]; simp [h]
      have hmj : (m'.id == j) = false := by simp [h]
      simp only [updateMessage, List.map_cons, findMessage, List.find?] at ih ⊢
      rw [if_pos (by simp [hx])]
      rw [hmj, hxj]
      exact ih
    · simp only [updateMessage, List.map_cons, findMessage, List.find?] at ih ⊢
      rw [if_neg (by simp [hx])]
      by_cases hj : x.id = j
      · simp [hj]
      · rw [show (x.id == j) = false by simp [hj]]
        exact ih

/-- `msg.save()` makes the saved state what a lookup by its id returns,
provided a document with that id was stored. -/
theorem findMessage_updateMessage_self (msgs : List Message) (m' : Message)
    (hex : (findMessage msgs m'.id).isSome) :
    findMessage (updateMessage msgs m') m'.id = some m' := by
  induction msgs with
  | nil => simp [findMessage] at hex
  | cons x xs ih =>
    by_cases hx : x.id = m'.id
    · simp only [updateMessage, List.map_cons, findMessage, List.find?]
      rw [if_pos (by simp [hx])]
      simp
    · simp only [updateMessage, List.map_cons, findMessage, List.find?] at hex ih ⊢
      rw [if_neg (by simp [hx])]
      rw [show (x.id == m'.id) = false by simp [hx]] at hex ⊢
      exact ih hex

/-- Unfolding of one scheduler-loop step. -/
theorem tickGo_cons (env : Env) (m : Message) (rest : List Message) :
    tickGo env (m :: rest) =
      ((tickGo (stepEnv env m.id) rest).1,
       sendMessageById env m.id "system" "scheduler" ::
         (tickGo (stepEnv env m.id) rest).2) :=
  rfl

/-- The inductive invariant of the scheduler loop over a list of
pairwise-distinct stored messages: every listed message gets exactly one
outcome; documents outside the list keep their lookup result; and every
listed message whose audit write succeeds ends up stored as its `sent`
version, with a "Send Message" audit entry recorded for actor
`"system"`. -/
theorem tickGo_spec (ds : List Message) : ∀ env : Env,
    (∀ m, m ∈ ds → findMessage env.messages m.id = some m) →
    ((ds.map (fun m => m.id)).Nodup) →
    ((tickGo env ds).2.length = ds.length) ∧
    (∀ j, ¬ j ∈ ds.map (fun m => m.id) →
      findMessage (tickGo env ds).1.messages j = findMessage env.messages j) ∧
    (∀ m, m ∈ ds → env.auditFails m.id = false →
      findMessage (tickGo env ds).1.messages m.id =
        some (sentVersion m env.now
          (resolveRecipients m env.groups env.directory).length) ∧
      ∃ out, out ∈ (tickGo env ds).2 ∧
        sendAudit "system" m.title
          (resolveRecipients m env.groups env.directory).length "scheduler" ∈
          out.audits) := by
  induction ds with
  | nil =>
    intro env _ _
    exact ⟨rfl, fun j _ => rfl, fun m hm => absurd hm (List.not_mem_nil m)⟩
  | cons m rest ih =>
    intro env hfind hnodup
    have hfm : findMessage env.messages m.id = some m := hfind m (List.mem_cons_self m rest)
    have hmid_notin : ¬ m.id ∈ rest.map (fun x => x.id) := (List.nodup_cons.mp hnodup).1
    have hrestnodup : (rest.map (fun x => x.id)).Nodup := (List.nodup_cons.mp hnodup).2
    have hframe1 : ∀ j, j ≠ m.id →
        findMessage (stepEnv env m.id).messages j = findMessage env.messages j := by
      intro j hj
      cases hsv : (sendMessageById env m.id "system" "scheduler").savedMsg with
      | none => simp [stepEnv, applySave, hsv]
      | some m' =>
        have hid' : m'.id = m.id := savedMsg_id env m.id "system" "scheduler" m' hsv
        simp only [stepEnv, applySave, hsv]
        refine findMessage_updateMessage_ne env.messages m' j ?_
        rw [hid']
        exact fun he => hj he.symm
    have hrestpre : ∀ m2, m2 ∈ rest →
        findMessage (stepEnv env m.id).messages m2.id = some m2 := by
      intro m2 hm2
      have hne : m2.id ≠ m.id := by
        intro he
        exact hmid_notin (he ▸ List.mem_map_of_mem (fun x => x.id) hm2)
      rw [hframe1 m2.id hne]
      exact hfind m2 (List.mem_cons_of_mem m hm2)
    have IH := ih (stepEnv env m.id) hrestpre hrestnodup
    refine ⟨?_, ?_, ?_⟩
    · rw [tickGo_cons]
      simpa using IH.1
    · intro j hj
      have hj1 : j ≠ m.id := by
        intro he
        exact hj (by rw [he]; exact List.mem_cons_self _ _)
      have hj2 : ¬ j ∈ rest.map (fun x => x.id) := by
        intro hmem
        exact hj (List.mem_cons_of_mem _ hmem)
      rw [tickGo_cons]
      rw [IH.2.1 j hj2]
      exact hframe1 j hj1
    · intro m2 hm2 haf
      rcases List.mem_cons.mp hm2 with rfl | hm2rest
      · -- the head message itself
        have hsend := send_found env m2.id m2 "system" "scheduler" hfm haf
        have hex : (findMessage env.messages (sentVersion m2 env.now
            (resolveRecipients m2 env.groups env.directory).length).id).isSome := by
          rw [show (sentVersion m2 env.now
            (resolveRecipients m2 env.groups env.directory).length).id = m2.id from rfl, hfm]
          rfl
        have hlook : findMessage (stepEnv env m2.id).messages m2.id =
            some (sentVersion m2 env.now
              (resolveRecipients m2 env.groups env.directory).length) := by
          simp only [stepEnv, hsend.1, applySave]
          exact findMessage_updateMessage_self env.messages _ hex
        constructor
        · rw [tickGo_cons]
          rw [IH.2.1 m2.id hmid_notin]
          exact hlook
        · refine ⟨sendMessageById env m2.id "system" "scheduler", ?_, hsend.2.1⟩
          rw [tickGo_cons]
          exact List.mem_cons_self _ _
      · -- a later due message: the induction hypothesis applies
        have hres := IH.2.2 m2 hm2rest haf
        constructor
        · rw [tickGo_cons]
          exact hres.1
        · rcases hres.2 with ⟨o, ho, hoa⟩
          refine ⟨o, ?_, hoa⟩
          rw [tickGo_cons]
          exact List.mem_cons_of_mem _ ho

/-- A message is picked up by the tick query exactly when its status is
`scheduled` and it has a `scheduledAt` not after the current time. -/
theorem isDue_true_iff (now : Nat) (m : Message) :
    isDue now m = true ↔
      (m.status = MsgStatus.scheduled ∧ ∃ t, m.scheduledAt = some t ∧ t ≤ now) := by
  cases hs : m.scheduledAt with
  | none => simp [isDue, hs]
  | some t => simp [isDue, hs]

/-- C8: on a scheduler tick over a store with pairwise-distinct message
ids, (a) exactly one send outcome is produced per due message — a
failing send of one due message never stops the scan; (b) every
`scheduled` message whose `scheduledAt` is absent or in the future keeps
its stored state untouched; and (c) every due `scheduled` message whose
send can complete ends up stored as `sent` with `sentAt` stamped to the
tick time, and a "Send Message" audit entry for actor `"system"` is
recorded in its outcome. -/
theorem scheduler_tick_behaviour (env : Env)
    (hids : (env.messages.map (fun m => m.id)).Nodup) :
    ((schedulerTick env).2.length = (env.messages.filter (isDue env.now)).length) ∧
    (∀ m, m ∈ env.messages → m.status = MsgStatus.scheduled →
      (∀ t, m.scheduledAt = some t → env.now < t) →
      findMessage (schedulerTick env).1.messages m.id = some m) ∧
    (∀ m t, m ∈ env.messages → m.status = MsgStatus.scheduled →
      m.scheduledAt = some t → t ≤ env.now → env.auditFails m.id = false →
      findMessage (schedulerTick env).1.messages m.id =
        some (sentVersion m env.now
          (resolveRecipients m env.groups env.directory).length) ∧
      (sentVersion m env.now
        (resolveRecipients m env.groups env.directory).length).status =
          MsgStatus.sent ∧
      (sentVersion m env.now
        (resolveRecipients m env.groups env.directory).length).sentAt =
          some env.now ∧
      ∃ out, out ∈ (schedulerTick env).2 ∧
        sendAudit "system" m.title
          (resolveRecipients m env.groups env.directory).length "scheduler" ∈
          out.audits) := by
  have hsub : List.Sublist ((env.messages.filter (isDue env.now)).map (fun m => m.id))
      (env.messages.map (fun m => m.id)) :=
    (List.filter_sublist env.messages).map (fun m => m.id)
  have hdsnodup : ((env.messages.filter (isDue env.now)).map (fun m => m.id)).Nodup :=
    List.Nodup.sublist hsub hids
  have hpre : ∀ m, m ∈ env.messages.filter (isDue env.now) →
      findMessage env.messages m.id = some m := by
    intro m hm
    exact findMessage_self (List.mem_of_mem_filter hm) hids
  have spec := tickGo_spec (env.messages.filter (isDue env.now)) env hpre hdsnodup
  simp only [schedulerTick]
  refine ⟨spec.1, ?_, ?_⟩
  · intro m hm hst hfut
    have hnotdue : isDue env.now m = false := by
      rcases hsch : m.scheduledAt with _ | t
      · simp [isDue, hsch]
      · have := hfut t hsch
        simp [isDue, hsch]
        omega
    have hnotin : ¬ m.id ∈ (env.messages.filter (isDue env.now)).map (fun x => x.id) := by
      intro hmem
      rcases List.mem_map.mp hmem with ⟨m', hm', hid'⟩
      have hm'mem : m' ∈ env.messages := List.mem_of_mem_filter hm'
      have : m' = m := List.inj_on_of_nodup_map hids hm'mem hm hid'
      rw [this] at hm'
      rw [List.mem_filter.mp hm' |>.2] at hnotdue
      cases hnotdue
    have := spec.2.1 m.id hnotin
    rw [this]
    exact findMessage_self hm hids
  · intro m t hm hst hsch hle haf
    have hdue : isDue env.now m = true := by
      simp [isDue, hst, hsch, hle]
    have hmem : m ∈ env.messages.filter (isDue env.now) :=
      List.mem_filter.mpr ⟨hm, hdue⟩
    have hmain := spec.2.2 m hmem haf
    exact ⟨hmain.1, rfl, rfl, hmain.2⟩

/-! ### Witness fixtures -/

/-- Directory user "alice". -/
def aliceUser : DirUser :=
  { username := "alice", email := "alice@example.com", role := "user", isActive := true }

/-- Directory user "bobm", a moderator. -/
def bobModUser : DirUser :=
  { username := "bobm", email := "bobm@example.com", role := "moderator", isActive := true }

/-- Directory user "carol", an admin. -/
def carolUser : DirUser :=
  { username := "carol", email := "carol@example.com", role := "admin", isActive := true }

/-- Directory user "bob" without an email address. -/
def bobNoMail : DirUser :=
  { username := "bob", email := "", role := "user", isActive := true }

/-- A group with manual member "alice" and filter `{role: "moderator"}`. -/
def grpG : Group :=
  { id := 7, name := "mods", isActive := true,
    filters := [("role", FilterVal.str "moderator")],
    members := [{ username := "alice", joinedAt := 0 }] }

/-- The three-user directory of the spec scenario. -/
def dirW : List DirUser := [aliceUser, bobModUser, carolUser]

/-- A message targeting `grpG` with explicit recipient "dave". -/
def msgG : Message :=
  { id := 3, title := "news", body := "n", channel := Channel.inApp,
    status := MsgStatus.draft, targetGroup := some 7, recipients := ["dave"],
    scheduledAt := none, sentAt := none, deliveryReport := none }

/-- A group-less message with a duplicated recipient entry. -/
def msgNG : Message :=
  { id := 8, title := "t", body := "b", channel := Channel.inApp,
    status := MsgStatus.draft, targetGroup := none,
    recipients := ["dave", "alice", "dave"],
    scheduledAt := none, sentAt := none, deliveryReport := none }

/-- A message whose `targetGroup` id 99 is absent from the group store. -/
def msgMG : Message :=
  { id := 4, title := "t", body := "b", channel := Channel.inApp,
    status := MsgStatus.draft, targetGroup := some 99, recipients := ["dave"],
    scheduledAt := none, sentAt := none, deliveryReport := none }

/-- World for the dangling-group scenario. -/
def envMG : Env :=
  { messages := [msgMG], groups := [grpG], directory := dirW,
    now := 50, transportFails := false, transportErr := "",
    auditFails := fun _ => false }

/-- An email message to "alice". -/
def msgTF : Message :=
  { id := 5, title := "t", body := "b", channel := Channel.email,
    status := MsgStatus.draft, targetGroup := none, recipients := ["alice"],
    scheduledAt := none, sentAt := none, deliveryReport := none }

/-- World whose email transport throws. -/
def envTF : Env :=
  { messages := [msgTF], groups := [], directory := dirW,
    now := 60, transportFails := true, transportErr := "relay down",
    auditFails := fun _ => false }

/-- An email message to "alice" and "bob" (who has no address). -/
def msgAB : Message :=
  { id := 6, title := "t", body := "b", channel := Channel.email,
    status := MsgStatus.draft, targetGroup := none,
    recipients := ["alice", "bob"],
    scheduledAt := none, sentAt := none, deliveryReport := none }

/-- World for the partial-address scenario. -/
def envAB : Env :=
  { messages := [msgAB], groups := [], directory := [aliceUser, bobNoMail],
    now := 70, transportFails := false, transportErr := "",
    auditFails := fun _ => false }

/-- An email message whose only recipient has no address. -/
def msgNM : Message :=
  { id := 9, title := "t", body := "b", channel := Channel.email,
    status := MsgStatus.draft, targetGroup := none, recipients := ["bob"],
    scheduledAt := none, sentAt := none, deliveryReport := none }

/-- World where the resolved audience yields no email address. -/
def envNM : Env :=
  { messages := [msgNM], groups := [], directory := [bobNoMail],
    now := 80, transportFails := false, transportErr := "",
    auditFails := fun _ => false }

/-- A scheduled in-app message with the given id and due time. -/
def schedMsg (i t : Nat) : Message :=
  { id := i, title := "s", body := "b", channel := Channel.inApp,
    status := MsgStatus.scheduled, targetGroup := none, recipients := ["dave"],
    scheduledAt := some t, sentAt := none, deliveryReport := none }

/-- Scheduler world at time 100: ids 2 (due, audit sink failing for it)
and 4 (due) plus id 3 (future); sending message 2 therefore fails while
message 4 still goes out. -/
def envSched : Env :=
  { messages := [schedMsg 2 50, schedMsg 3 200, schedMsg 4 100],
    groups := [], directory := [],
    now := 100, transportFails := false, transportErr := "",
    auditFails := fun i => i == 2 }

/-! ### Witnesses -/

/-- Witness for C2, on the spec scenario: group `grpG` (member "alice",
filter role = moderator), directory with "bobm" (moderator) and "carol"
(admin), message with explicit recipient "dave". -/
theorem audience_with_group_union_witness :
    msgG.targetGroup = some 7 ∧
    findGroup [grpG] 7 = some grpG ∧
    ((∀ x, x ∈ resolveRecipients msgG [grpG] dirW ↔
        x ∈ msgG.recipients ∨ x ∈ grpG.members.map (fun m => m.username) ∨
          x ∈ dirMatches grpG dirW) ∧
    (resolveRecipients msgG [grpG] dirW).Nodup ∧
    (∀ (k : String) (v : FilterVal) (fs1 fs2 : List (String × FilterVal))
        (groups2 : List Group),
      ¬ k ∈ allowedKeys →
      grpG.filters = fs1 ++ fs2 →
      findGroup groups2 7 = some { grpG with filters := fs1 ++ (k, v) :: fs2 } →
      resolveRecipients msgG groups2 dirW = resolveRecipients msgG [grpG] dirW)) ∧
    resolveRecipients msgG [grpG] dirW = ["dave", "alice", "bobm"] :=
  ⟨rfl, rfl, audience_with_group_union msgG [grpG] dirW 7 grpG rfl rfl, rfl⟩

/-- Witness for C3: a group-less message with recipients
`["dave", "alice", "dave"]` resolves to exactly `{dave, alice}`. -/
theorem audience_without_group_witness :
    msgNG.targetGroup = none ∧
    ((∀ x, x ∈ resolveRecipients msgNG [grpG] dirW ↔ x ∈ msgNG.recipients) ∧
    (resolveRecipients msgNG [grpG] dirW).Nodup ∧
    (∀ recipients2 : List String,
      (∀ x, x ∈ recipients2 ↔ x ∈ msgNG.recipients) →
      ∀ x, x ∈ resolveRecipients { msgNG with recipients := recipients2 } [grpG] dirW ↔
        x ∈ resolveRecipients msgNG [grpG] dirW)) ∧
    resolveRecipients msgNG [grpG] dirW = ["dave", "alice"] :=
  ⟨rfl, audience_without_group msgNG [grpG] dirW rfl, rfl⟩

/-- Witness for C4: sending message 4, whose `targetGroup` id 99 is
absent from the store, succeeds with the explicit recipient alone. -/
theorem missing_group_send_ok_witness :
    findMessage envMG.messages 4 = some msgMG ∧
    msgMG.targetGroup = some 99 ∧
    findGroup envMG.groups 99 = none ∧
    envMG.auditFails 4 = false ∧
    (resolveRecipients msgMG envMG.groups envMG.directory = dedup msgMG.recipients ∧
    (∀ x, x ∈ resolveRecipients msgMG envMG.groups envMG.directory ↔
      x ∈ msgMG.recipients) ∧
    (sendMessageById envMG 4 "admin" "1.2.3.4").ret =
      Except.ok (some (dedup msgMG.recipients).length) ∧
    (sendMessageById envMG 4 "admin" "1.2.3.4").savedMsg =
      some (sentVersion msgMG envMG.now (dedup msgMG.recipients).length)) :=
  ⟨rfl, rfl, rfl, rfl,
    missing_group_send_ok envMG 4 99 msgMG "admin" "1.2.3.4" rfl rfl rfl rfl⟩

/-- Witness for C5: with the relay down, sending email message 5 to
"alice" still marks it `sent` with count 1, returns 1, and records the
transport-error audit entry next to the send entry. -/
theorem transport_failure_still_sent_witness :
    findMessage envTF.messages 5 = some msgTF ∧
    msgTF.channel = Channel.email ∧
    envTF.transportFails = true ∧
    envTF.auditFails 5 = false ∧
    (emailsFor envTF.directory
      (resolveRecipients msgTF envTF.groups envTF.directory)).length ≠ 0 ∧
    ((sendMessageById envTF 5 "admin" "1.2.3.4").savedMsg =
      some (sentVersion msgTF envTF.now
        (resolveRecipients msgTF envTF.groups envTF.directory).length) ∧
    (sendMessageById envTF 5 "admin" "1.2.3.4").ret =
      Except.ok (some (resolveRecipients msgTF envTF.groups envTF.directory).length) ∧
    (sendMessageById envTF 5 "admin" "1.2.3.4").transportCalls =
      [emailsFor envTF.directory (resolveRecipients msgTF envTF.groups envTF.directory)] ∧
    (sendMessageById envTF 5 "admin" "1.2.3.4").audits =
      [errorAudit "admin" 5 "1.2.3.4" envTF.transportErr,
       sendAudit "admin" msgTF.title
         (resolveRecipients msgTF envTF.groups envTF.directory).length "1.2.3.4"] ∧
    errorAudit "admin" 5 "1.2.3.4" envTF.transportErr ≠
      sendAudit "admin" msgTF.title
        (resolveRecipients msgTF envTF.groups envTF.directory).length "1.2.3.4") :=
  ⟨rfl, rfl, rfl, rfl, by decide,
    transport_failure_still_sent envTF 5 msgTF "admin" "1.2.3.4" rfl rfl rfl rfl
      (by decide)⟩

/-- Witness for C6, on the spec scenario: audience `{alice, bob}` where
only "alice" has an address: the transport is called once with exactly
`["alice@example.com"]` while the saved recipient count is 2. -/
theorem email_dispatch_addresses_witness :
    findMessage envAB.messages 6 = some msgAB ∧
    msgAB.channel = Channel.email ∧
    envAB.auditFails 6 = false ∧
    ((∀ e, e ∈ emailsFor envAB.directory
        (resolveRecipients msgAB envAB.groups envAB.directory) ↔
        (e ≠ "" ∧ ∃ u, u ∈ envAB.directory ∧
          u.username ∈ resolveRecipients msgAB envAB.groups envAB.directory ∧
          u.email = e)) ∧
    (sendMessageById envAB 6 "admin" "1.2.3.4").transportCalls =
      (if (emailsFor envAB.directory
            (resolveRecipients msgAB envAB.groups envAB.directory)).length ≠ 0 then
          [emailsFor envAB.directory (resolveRecipients msgAB envAB.groups envAB.directory)]
        else []) ∧
    (sendMessageById envAB 6 "admin" "1.2.3.4").savedMsg =
      some (sentVersion msgAB envAB.now
        (resolveRecipients msgAB envAB.groups envAB.directory).length)) ∧
    (sendMessageById envAB 6 "admin" "1.2.3.4").transportCalls =
      [["alice@example.com"]] ∧
    (resolveRecipients msgAB envAB.groups envAB.directory).length = 2 :=
  ⟨rfl, rfl, rfl,
    email_dispatch_addresses envAB 6 msgAB "admin" "1.2.3.4" rfl rfl rfl, rfl, rfl⟩

/-- Witness for C10: email message 9 resolves to `{bob}`, who has no
address: no transport call is made, yet the message is saved as `sent`
with count 1 and the call returns 1. -/
theorem empty_address_list_no_transport_witness :
    findMessage envNM.messages 9 = some msgNM ∧
    msgNM.channel = Channel.email ∧
    envNM.auditFails 9 = false ∧
    emailsFor envNM.directory
      (resolveRecipients msgNM envNM.groups envNM.directory) = [] ∧
    ((sendMessageById envNM 9 "admin" "1.2.3.4").transportCalls = [] ∧
    (sendMessageById envNM 9 "admin" "1.2.3.4").savedMsg =
      some (sentVersion msgNM envNM.now
        (resolveRecipients msgNM envNM.groups envNM.directory).length) ∧
    (sendMessageById envNM 9 "admin" "1.2.3.4").ret =
      Except.ok (some (resolveRecipients msgNM envNM.groups envNM.directory).length)) :=
  ⟨rfl, rfl, rfl, rfl,
    empty_address_list_no_transport envNM 9 msgNM "admin" "1.2.3.4" rfl rfl rfl rfl⟩

/-- Witness for C8, at time 100 over messages 2 (due at 50, audit sink
failing for it), 3 (due at 200, i.e. future) and 4 (due at 100): both
due messages are processed (two outcomes) even though message 2's send
fails, message 4 ends `sent`, and message 3 is untouched. -/
theorem scheduler_tick_behaviour_witness :
    (envSched.messages.map (fun m => m.id)).Nodup ∧
    (((schedulerTick envSched).2.length =
        (envSched.messages.filter (isDue envSched.now)).length) ∧
    (∀ m, m ∈ envSched.messages → m.status = MsgStatus.scheduled →
      (∀ t, m.scheduledAt = some t → envSched.now < t) →
      findMessage (schedulerTick envSched).1.messages m.id = some m) ∧
    (∀ m t, m ∈ envSched.messages → m.status = MsgStatus.scheduled →
      m.scheduledAt = some t → t ≤ envSched.now →
      envSched.auditFails m.id = false →
      findMessage (schedulerTick envSched).1.messages m.id =
        some (sentVersion m envSched.now
          (resolveRecipients m envSched.groups envSched.directory).length) ∧
      (sentVersion m envSched.now
        (resolveRecipients m envSched.groups envSched.directory).length).status =
          MsgStatus.sent ∧
      (sentVersion m envSched.now
        (resolveRecipients m envSched.groups envSched.directory).length).sentAt =
          some envSched.now ∧
      ∃ out, out ∈ (schedulerTick envSched).2 ∧
        sendAudit "system" m.title
          (resolveRecipients m envSched.groups envSched.directory).length
          "scheduler" ∈ out.audits)) ∧
    findMessage (schedulerTick envSched).1.messages 4 =
      some (sentVersion (schedMsg 4 100) 100 1) ∧
    findMessage (schedulerTick envSched).1.messages 3 = some (schedMsg 3 200) ∧
    (schedulerTick envSched).2.length = 2 :=
  ⟨by decide, scheduler_tick_behaviour envSched (by decide), rfl, rfl, rfl⟩

end Apsara
